import Mathlib

/-!
Verification of the ANT driver core (ant.go): the frame decoder, the I/O
pump, the command-encoding layer with burst sequencing, and the
session-shutdown protocol.  Go machine integers are embedded as Nat with
explicit `% 256` wherever the source performs uint8 arithmetic; Go channels
closed at end-of-stream become finite lists; the opaque frame codec is a
parameter.
-/

namespace Ant

/-- Modelled from the spec: the designated SYNC constant that delimits
frames (the codec byte-level constants live outside the provided source;
the spec fixes only that SYNC is a single designated byte value, and no
claim depends on which). -/
def MESG_TX_SYNC : Nat := 164

/-- Modelled from the spec: message-id byte for broadcast data (constant
defined outside the provided source; its exact value is irrelevant to the
claims). -/
def MESG_BROADCAST_DATA_ID : Nat := 78

/-- Modelled from the spec: message-id byte for acknowledged data. -/
def MESG_ACKNOWLEDGED_DATA_ID : Nat := 79

/-- Modelled from the spec: message-id byte for burst data. -/
def MESG_BURST_DATA_ID : Nat := 80

/-- Modelled from the spec: message-id byte used by SetSearchWaveform in
the source. -/
def MESG_RADIO_TX_POWER_ID : Nat := 71

/-- Modelled from the spec: a Message is a message-id byte plus a
variable-length payload (the Message type itself is defined outside the
provided source; the spec fixes this shape). -/
structure Message where
  messageId : Nat
  payload : List Nat
deriving DecidableEq, Repr

/-- Modelled from the spec: NewMessage builds the typed outbound unit from
a message-id and payload bytes. -/
def NewMessage (messageId : Nat) (data : List Nat) : Message :=
  ⟨messageId, data⟩

/-- Error taxonomy of the command layer: the source panics on argument-shape
violations, which the spec classifies as InvalidArgument surfaced to the
caller with nothing enqueued; sliceOutOfRange is the Go runtime panic
raised by a slice expression whose bounds are invalid (SendBurstTransfer
computes its slice bounds in uint8, so they can wrap). -/
inductive AntError where
  | invalidArgument
  | sliceOutOfRange
deriving DecidableEq, Repr

/-- An enqueue onto one of the two outbound channels of the session:
dev.write (queued) or dev.writeInTimeslot (timeslot-priority). -/
inductive Outbound where
  | queued (m : Message)
  | timeslot (m : Message)
deriving DecidableEq, Repr

/-! ## Frame decoder (decodeLoop, ant.go lines 119-168)

The byte channel is embedded as a finite list: exhausting the list is the
channel being closed.  The codec's Decode is an opaque parameter
returning `some` message or `none` (IntegrityError).  All uint8
arithmetic of the source is kept: the buffer size is `(length+4) % 256`
because `length` is a Go byte and `make([]byte, length+4)` /
`int(length+4)` both compute in uint8 first.  An out-of-range index into
the allocated buffer (which Go would turn into a runtime panic) is
recorded in the `panicked` flag. -/

/-- Result of running the decode loop to termination: the messages handed
to the publish step, in order, and whether the loop died in a Go runtime
panic instead of returning. -/
structure DecodeResult where
  msgs : List Message
  panicked : Bool
deriving DecidableEq, Repr

/-- The decode loop of ant.go: seek a SYNC byte, read a length byte L,
allocate `(L+4) % 256` bytes, consume `(L+4) % 256 - 2` further bytes,
hand the buffer to the codec, silently skip frames the codec rejects,
emit decoded messages, and terminate when the byte channel closes.  If
the wrapped buffer size is below 2, the stores buf[0] := SYNC and
buf[1] := L are out of range and the loop panics. -/
def decodeLoop (decode : List Nat → Option Message) : List Nat → DecodeResult
  | [] => ⟨[], false⟩
  | b :: rest =>
    if b ≠ MESG_TX_SYNC then
      decodeLoop decode rest
    else
      match rest with
      | [] => ⟨[], false⟩
      | len :: rest2 =>
        let bufSize := (len + 4) % 256
        if bufSize < 2 then ⟨[], true⟩
        else
          let need := bufSize - 2
          if rest2.length < need then ⟨[], false⟩
          else
            let buf := MESG_TX_SYNC :: len :: rest2.take need
            match decode buf with
            | none => decodeLoop decode (rest2.drop need)
            | some m =>
              let r := decodeLoop decode (rest2.drop need)
              ⟨m :: r.msgs, r.panicked⟩
termination_by l => l.length
decreasing_by
  all_goals simp [List.length_drop]
  all_goals omega

/-! ## Command layer (ant.go lines 285-343)

Each builder either panics (embedded as `Except.error .invalidArgument`,
reached before any channel send, so nothing is enqueued) or sends the
built Message on an outbound channel (embedded as the returned list of
enqueues, in order). -/

/-- SendBroadcastData: payload must be exactly 8 bytes; builds
{channel, data:8} and enqueues it on the queued channel. -/
def SendBroadcastData (channel : Nat) (data : List Nat) :
    Except AntError (List Outbound) :=
  if data.length ≠ 8 then .error .invalidArgument
  else .ok [.queued (NewMessage MESG_BROADCAST_DATA_ID (channel :: data))]

/-- SendAcknowledgedData: payload must be exactly 8 bytes; builds
{channel, data:8} and enqueues it on the timeslot-priority channel. -/
def SendAcknowledgedData (channel : Nat) (data : List Nat) :
    Except AntError (List Outbound) :=
  if data.length ≠ 8 then .error .invalidArgument
  else .ok [.timeslot (NewMessage MESG_ACKNOWLEDGED_DATA_ID (channel :: data))]

/-- SendBurstTransferPacket: payload must be exactly 8 bytes; builds
{channelSeq, data:8} and enqueues it on the timeslot-priority channel. -/
def SendBurstTransferPacket (channelSeq : Nat) (data : List Nat) :
    Except AntError (List Outbound) :=
  if data.length ≠ 8 then .error .invalidArgument
  else .ok [.timeslot (NewMessage MESG_BURST_DATA_ID (channelSeq :: data))]

/-- SetSearchWaveform: the waveform value must be 316 or 97; builds
{channel, waveform:2 little-endian} and enqueues it on the queued
channel (the source uses MESG_RADIO_TX_POWER_ID for this command). -/
def SetSearchWaveform (channel : Nat) (searchWaveform : Nat) :
    Except AntError (List Outbound) :=
  if searchWaveform ≠ 316 ∧ searchWaveform ≠ 97 then .error .invalidArgument
  else .ok [.queued (NewMessage MESG_RADIO_TX_POWER_ID
    [channel, searchWaveform % 256, searchWaveform / 256 % 256])]

/-- The sequence field of burst packet i of `packets` total, as the source
computes it in uint8 arithmetic: `sequence := ((i-1) % 3) + 1` (where i-1
wraps at 0), overridden to 0 when i = 0, and ORed with 0b100 when i > 0
and i = packets-1 (the source's else-if skips the OR when i = 0). -/
def burstSequence (i packets : Nat) : Nat :=
  let s := (i + 255) % 256 % 3 + 1
  if i = 0 then 0
  else if i = packets - 1 then s ||| 4
  else s

/-- The channel-sequence byte of burst packet i:
`channelSeq := channel | sequence<<5` in uint8 arithmetic. -/
def burstChannelSeq (channel i packets : Nat) : Nat :=
  channel ||| (burstSequence i packets <<< 5 % 256)

/-- The Go slice expression data[lo:hi]: yields the elements from index
lo (inclusive) to hi (exclusive) when lo ≤ hi and hi is in range, and
raises a runtime panic otherwise.  The high bound is checked against the
length; the source's slices never reach between a slice's length and its
capacity, so that distinction is inert here. -/
def goSlice (data : List Nat) (lo hi : Nat) : Except AntError (List Nat) :=
  if lo ≤ hi ∧ hi ≤ data.length then .ok ((data.drop lo).take (hi - lo))
  else .error .sliceOutOfRange

/-- The per-index loop body of SendBurstTransfer, run over the packet
indices in increasing order; each index sends one burst packet built from
the slice data[i*8 : i*8+8], whose two bounds the source computes in
uint8 arithmetic (the loop variable i is a Go uint8), so at i = 31 the
high bound wraps to (31*8+8) mod 256 = 0 and the slice panics.  The
result is the list of packets enqueued before control left the loop,
paired with the panic that aborted it, if any. -/
def burstLoop (channel : Nat) (data : List Nat) (packets : Nat) :
    List Nat → List Outbound × Option AntError
  | [] => ([], none)
  | i :: is =>
    match goSlice data (i * 8 % 256) ((i * 8 + 8) % 256) with
    | .error e => ([], some e)
    | .ok slice =>
      match SendBurstTransferPacket (burstChannelSeq channel i packets) slice with
      | .error e => ([], some e)
      | .ok p =>
        let r := burstLoop channel data packets is
        (p ++ r.1, r.2)

/-- SendBurstTransfer: the payload length must be a multiple of 8 (else
the argument-shape panic fires before anything is enqueued); the packet
count is `uint8(len(data) / 8)`, i.e. truncated mod 256; packets are
sent in increasing index order until the loop ends or a runtime panic
aborts it.  The result pairs the packets enqueued with the aborting
panic, if any. -/
def SendBurstTransfer (channel : Nat) (data : List Nat) :
    List Outbound × Option AntError :=
  if data.length % 8 ≠ 0 then ([], some .invalidArgument)
  else
    let packets := data.length / 8 % 256
    burstLoop channel data packets (List.range packets)

/-! ## I/O pump (loop, ant.go lines 83-117)

The loop body is a Go `select` with two channel cases (stopper, write)
and a `default`.  Per Go semantics, when several cases can proceed one is
chosen by uniform pseudo-random selection, and `default` runs only when
none can; the random pick is embedded as an explicit `Choice` oracle. -/

/-- One of the three mutually exclusive actions of a pump iteration. -/
inductive Branch where
  | shutdown
  | outbound
  | inboundPoll
deriving DecidableEq, Repr

/-- The oracle standing for Go's pseudo-random pick among ready select
cases when both the stopper case and the write case can proceed. -/
inductive Choice where
  | pickShutdown
  | pickOutbound
deriving DecidableEq, Repr

/-- Which branch of the loop's select fires, given which of the two
channel cases is ready and an oracle for the ambiguous both-ready case:
a ready case always beats default, and among ready cases Go chooses
pseudo-randomly. -/
def selectStep (stopReady writeReady : Bool) (c : Choice) : Branch :=
  match stopReady, writeReady with
  | true, true =>
    match c with
    | .pickShutdown => .shutdown
    | .pickOutbound => .outbound
  | true, false => .shutdown
  | false, true => .outbound
  | false, false => .inboundPoll

/-- Observable state of the pump: whether a Stop sender is blocked on the
stopper channel, the pending senders on dev.write and dev.writeInTimeslot
in order, the successful transport reads not yet consumed, the byte
sequences written to the transport, the bytes forwarded to the decoder
channel, and whether the loop has returned. -/
structure PumpState where
  stopperReady : Bool
  writeQ : List Message
  timeslotQ : List Message
  readChunks : List (List Nat)
  written : List (List Nat)
  toDecoder : List Nat
  stopped : Bool
deriving DecidableEq, Repr

/-- One iteration of the pump loop: resolve the select, then either
return (shutdown), encode-and-write the head queued Message (outbound),
or perform a non-blocking read and forward the bytes read to the decoder
channel (default; a failed read leaves the state unchanged).  The codec's
Encode is an opaque parameter. -/
def pumpStep (encode : Message → List Nat) (c : Choice) (s : PumpState) :
    PumpState :=
  if s.stopped then s
  else
    match selectStep s.stopperReady (!s.writeQ.isEmpty) c with
    | .shutdown => { s with stopped := true, stopperReady := false }
    | .outbound =>
      match s.writeQ with
      | [] => s
      | m :: rest =>
        { s with writeQ := rest, written := s.written ++ [encode m] }
    | .inboundPoll =>
      match s.readChunks with
      | [] => s
      | chunk :: rest =>
        { s with readChunks := rest, toDecoder := s.toDecoder ++ chunk }

/-- The pump loop run under a given sequence of oracle choices. -/
def pumpRun (encode : Message → List Nat) :
    List Choice → PumpState → PumpState
  | [], s => s
  | c :: cs, s => pumpRun encode cs (pumpStep encode c s)

/-! ## Session shutdown (Stop and the two loops, ant.go lines 74-121)

A small labelled transition system over the three threads involved in
Stop: the caller of Stop, the pump loop and the decode loop.  Channel
operations on the unbuffered stopper/done channels are rendezvous steps.
The pump's deferred cleanup closes the decoder byte channel and the
transport before its done send (defers run in reverse declaration order);
the decode loop can reach its own done send only after observing that
closure. -/

/-- Program counter of the Stop caller: about to send on stopper, waiting
for the first done signal, waiting for the second, or returned. -/
inductive SPC where
  | idle
  | waitDone1
  | waitDone2
  | returned
deriving DecidableEq, Repr

/-- Program counter of the pump loop: iterating, running its deferred
cleanup, blocked sending its done signal, or finished. -/
inductive PPC where
  | running
  | cleanup
  | sendDone
  | finished
deriving DecidableEq, Repr

/-- Program counter of the decode loop: consuming bytes, blocked sending
its done signal after observing closure, or finished. -/
inductive DPC where
  | running
  | sendDone
  | finished
deriving DecidableEq, Repr

/-- Joint state of the shutdown protocol, with flags recording whether the
pump has closed the decoder byte channel and the transport. -/
structure SysState where
  spc : SPC
  ppc : PPC
  dpc : DPC
  decoderClosed : Bool
  transportClosed : Bool
deriving DecidableEq, Repr

/-- The state in which Stop is called after Start: both loops running,
nothing closed. -/
def sysInit : SysState :=
  ⟨.idle, .running, .running, false, false⟩

/-- The transitions of the shutdown protocol.  `stopSignal` is the
rendezvous of Stop's send on the stopper channel with the pump's select;
`pumpIter` is any non-shutdown pump iteration; `pumpCleanup` runs the
pump's defers (closing the byte channel and the transport); `pumpDone` /
`decDone` are the rendezvous of a done send with one of Stop's two
receives; `decObserveClose` is the decode loop seeing its input channel
closed. -/
inductive SysStep : SysState → SysState → Prop where
  | stopSignal (s : SysState) : s.spc = .idle → s.ppc = .running →
      SysStep s { s with spc := .waitDone1, ppc := .cleanup }
  | pumpIter (s : SysState) : s.ppc = .running → SysStep s s
  | pumpCleanup (s : SysState) : s.ppc = .cleanup →
      SysStep s { s with ppc := .sendDone, decoderClosed := true,
                         transportClosed := true }
  | pumpDone1 (s : SysState) : s.ppc = .sendDone → s.spc = .waitDone1 →
      SysStep s { s with ppc := .finished, spc := .waitDone2 }
  | pumpDone2 (s : SysState) : s.ppc = .sendDone → s.spc = .waitDone2 →
      SysStep s { s with ppc := .finished, spc := .returned }
  | decObserveClose (s : SysState) : s.dpc = .running →
      s.decoderClosed = true → SysStep s { s with dpc := .sendDone }
  | decDone1 (s : SysState) : s.dpc = .sendDone → s.spc = .waitDone1 →
      SysStep s { s with dpc := .finished, spc := .waitDone2 }
  | decDone2 (s : SysState) : s.dpc = .sendDone → s.spc = .waitDone2 →
      SysStep s { s with dpc := .finished, spc := .returned }

/-- States reachable from the post-Start state by shutdown-protocol
transitions. -/
inductive SysReach : SysState → Prop where
  | init : SysReach sysInit
  | step {s s' : SysState} : SysReach s → SysStep s s' → SysReach s'

/-- The fully quiesced state: Stop has returned, both loops are finished,
the decoder byte channel and the transport are closed. -/
def sysFinal : SysState :=
  ⟨.returned, .finished, .finished, true, true⟩

/-- Safety invariant of the shutdown protocol: Stop in its second wait
means one loop already finished; Stop returned means both finished; the
decode loop leaves its byte-consuming state only after its input channel
was closed; and the pump reaches its done send only after closing the
byte channel and the transport. -/
def SysInv (s : SysState) : Prop :=
  (s.spc = .waitDone2 → s.ppc = .finished ∨ s.dpc = .finished) ∧
  (s.spc = .returned → s.ppc = .finished ∧ s.dpc = .finished) ∧
  (s.dpc ≠ .running → s.decoderClosed = true) ∧
  ((s.ppc = .sendDone ∨ s.ppc = .finished) →
    s.decoderClosed = true ∧ s.transportClosed = true)

/-- A concrete instance of the opaque codec, used only to witness the
decoder theorems on closed inputs: a raw frame passes validation exactly
when its final (checksum) byte is zero, decoding to its message-id byte
and its payload bytes. -/
def sampleDecode (bs : List Nat) : Option Message :=
  if bs.getLast? = some 0 then
    some (NewMessage (bs.getD 2 0) ((bs.drop 3).dropLast))
  else none

/-- The channel-sequence byte asserted by the burst-sequencing claim,
written from the claim: sequence 0 for the first packet,
`((i-1) mod 3)+1` for interior packets, terminal bit 0b100 ORed in for
the last packet, all placed as `channel | (sequence << 5)` (with the
first-packet rule listed first, as in the claim). -/
def specBurstChannelSeq (channel i N : Nat) : Nat :=
  if i = 0 then channel
  else if i = N - 1 then channel ||| ((((i - 1) % 3 + 1) ||| 4) <<< 5)
  else channel ||| (((i - 1) % 3 + 1) <<< 5)

/-! ## Helper lemmas -/

/-- Processing one complete well-formed raw frame at the head of the byte
stream (content length at most 251, so the uint8 buffer-size arithmetic
does not wrap): the decoder consumes exactly the frame, hands it to the
codec, emits the decoded message when validation succeeds, and continues
with the rest of the stream either way. -/
theorem decodeLoop_frame (decode : List Nat → Option Message) (L : Nat)
    (body tail : List Nat) (hL : L ≤ 251) (hb : body.length = L + 2) :
    decodeLoop decode (MESG_TX_SYNC :: L :: (body ++ tail)) =
      match decode (MESG_TX_SYNC :: L :: body) with
      | none => decodeLoop decode tail
      | some m =>
        let r := decodeLoop decode tail
        ⟨m :: r.msgs, r.panicked⟩ := by
  rw [decodeLoop]
  have hmod : (L + 4) % 256 = L + 4 := Nat.mod_eq_of_lt (by omega)
  simp only [hmod]
  have h2 : ¬ (L + 4 < 2) := by omega
  have hlen : ¬ (body.length + tail.length < L + 2) := by omega
  have htake : (body ++ tail).take (L + 2) = body := by
    have h : L + 2 = body.length := by omega
    rw [h]; exact List.take_left body tail
  have hdrop : (body ++ tail).drop (L + 2) = tail := by
    have h : L + 2 = body.length := by omega
    rw [h]; exact List.drop_left body tail
  simp [h2, hlen, htake, hdrop]

/-- A byte stream that ends partway through assembly of a frame whose
length byte does not trip the uint8 wrap (L at most 251) makes the
decoder terminate cleanly with no message for that frame. -/
theorem decodeLoop_partial (decode : List Nat → Option Message) (L : Nat)
    (partBody : List Nat) (hL : L ≤ 251) (hb : partBody.length < L + 2) :
    decodeLoop decode (MESG_TX_SYNC :: L :: partBody) = ⟨[], false⟩ := by
  rw [decodeLoop]
  have hmod : (L + 4) % 256 = L + 4 := Nat.mod_eq_of_lt (by omega)
  simp only [hmod]
  have h2 : ¬ (L + 4 < 2) := by omega
  simp [h2]
  omega

/-- Running the burst loop over any list of packet indices that stay
below the uint8 slice-bound wrap (index at most 30) and whose 8-byte
slices lie inside the payload sends, in order, one timeslot burst packet
per index, built from the source's channel-sequence byte and slice, with
no panic. -/
theorem burstLoop_ok (channel : Nat) (data : List Nat) (packets : Nat)
    (is : List Nat) (h : ∀ i ∈ is, i ≤ 30 ∧ i * 8 + 8 ≤ data.length) :
    burstLoop channel data packets is =
      (is.map (fun i => .timeslot (NewMessage MESG_BURST_DATA_ID
        (burstChannelSeq channel i packets :: (data.drop (i * 8)).take 8))),
       none) := by
  induction is with
  | nil => rfl
  | cons i is ih =>
    obtain ⟨hi30, hilen⟩ := h i (by simp)
    have hlo : i * 8 % 256 = i * 8 := by omega
    have hhi : (i * 8 + 8) % 256 = i * 8 + 8 := by omega
    have hslice : goSlice data (i * 8 % 256) ((i * 8 + 8) % 256) =
        .ok ((data.drop (i * 8)).take 8) := by
      have harg : i * 8 + 8 - i * 8 = 8 := by omega
      rw [hlo, hhi, goSlice, if_pos ⟨by omega, hilen⟩, harg]
    have hlen : ((data.drop (i * 8)).take 8).length = 8 := by
      simp [List.length_take, List.length_drop]; omega
    simp [burstLoop, hslice, SendBurstTransferPacket, hlen,
      ih (fun j hj => h j (by simp [hj]))]

/-- A burst loop whose leading indices all complete without panic
processes an appended index list by running the tail after the prefix's
packets. -/
theorem burstLoop_append (channel : Nat) (data : List Nat) (packets : Nat)
    (is1 is2 : List Nat) (h : (burstLoop channel data packets is1).2 = none) :
    burstLoop channel data packets (is1 ++ is2) =
      ((burstLoop channel data packets is1).1 ++
        (burstLoop channel data packets is2).1,
       (burstLoop channel data packets is2).2) := by
  induction is1 with
  | nil => simp [burstLoop]
  | cons i is ih =>
    simp only [List.cons_append, burstLoop] at h ⊢
    cases hs : goSlice data (i * 8 % 256) ((i * 8 + 8) % 256) with
    | error e => simp [hs] at h
    | ok slice =>
      simp only [hs] at h ⊢
      cases hp : SendBurstTransferPacket (burstChannelSeq channel i packets)
          slice with
      | error e => simp [hp] at h
      | ok p =>
        simp only [hp] at h ⊢
        simp [ih h, List.append_assoc]

/-- At packet index 31 the burst loop panics before sending anything: the
uint8 slice bounds are 31*8 mod 256 = 248 and (31*8+8) mod 256 = 0, an
invalid (low greater than high) slice. -/
theorem burstLoop_panics_at_31 (channel : Nat) (data : List Nat)
    (packets : Nat) (is : List Nat) :
    burstLoop channel data packets (31 :: is) =
      ([], some .sliceOutOfRange) := by
  rw [burstLoop]
  norm_num [goSlice]

/-- For every packet index below a packet count of at most 255, the
channel-sequence byte the source computes agrees with the byte the claim
prescribes. -/
theorem burstChannelSeq_eq_spec (channel i N : Nat) (hi : i < N)
    (hN : N ≤ 255) :
    burstChannelSeq channel i N = specBurstChannelSeq channel i N := by
  unfold burstChannelSeq burstSequence specBurstChannelSeq
  by_cases h0 : i = 0
  · simp [h0]
  · have hwrap : (i + 255) % 256 = i - 1 := by omega
    have hm : (i - 1) % 3 + 1 = 1 ∨ (i - 1) % 3 + 1 = 2 ∨
        (i - 1) % 3 + 1 = 3 := by omega
    simp only [h0, if_false, hwrap]
    by_cases hlast : i = N - 1
    · simp only [if_pos hlast]
      rcases hm with h | h | h <;> rw [h] <;>
        exact congrArg (fun x => channel ||| x) (by decide)
    · simp only [if_neg hlast]
      rcases hm with h | h | h <;> rw [h] <;>
        exact congrArg (fun x => channel ||| x) (by decide)

/-- One pump iteration leaves the timeslot queue untouched, and either
leaves the write queue and transport writes unchanged or pops exactly the
head queued Message and writes its encoding. -/
theorem pumpStep_effects (encode : Message → List Nat) (c : Choice)
    (s : PumpState) :
    (pumpStep encode c s).timeslotQ = s.timeslotQ ∧
    (((pumpStep encode c s).written = s.written ∧
      (pumpStep encode c s).writeQ = s.writeQ) ∨
     (∃ m rest, s.writeQ = m :: rest ∧
      (pumpStep encode c s).written = s.written ++ [encode m] ∧
      (pumpStep encode c s).writeQ = rest)) := by
  unfold pumpStep
  split
  · exact ⟨rfl, .inl ⟨rfl, rfl⟩⟩
  · split
    · exact ⟨rfl, .inl ⟨rfl, rfl⟩⟩
    · match hw : s.writeQ with
      | [] => simp [hw]
      | m :: rest => exact ⟨rfl, .inr ⟨m, rest, rfl, by simp [hw], by simp [hw]⟩⟩
    · match hr : s.readChunks with
      | [] => simp [hr]
      | chunk :: rest => simp [hr]

/-- Every shutdown-protocol transition preserves the safety invariant. -/
theorem sysInv_step {s s' : SysState} (inv : SysInv s) (st : SysStep s s') :
    SysInv s' := by
  obtain ⟨h1, h2, h3, h4⟩ := inv
  cases st <;> simp_all [SysInv]

/-- Every reachable state of the shutdown protocol satisfies the safety
invariant. -/
theorem sysReach_inv {s : SysState} (h : SysReach s) : SysInv s := by
  induction h with
  | init => simp [SysInv, sysInit]
  | step _ st ih => exact sysInv_step ih st

/-! ## Claim theorems -/

/-- Claim C1.  The claim says that for every content-length byte L from 0
to 255 the decoder allocates exactly L+4 bytes and consumes exactly L+2
further bytes before passing the frame to the codec.  The code computes
the buffer size in uint8, so for L = 252 it allocates (252+4) mod 256 = 0
bytes and dies in an index-out-of-range panic at the store of the SYNC
byte, consuming nothing and reaching no codec — even with all 254
trailing bytes available on the channel. -/
theorem c1_length_overflow_panics :
    decodeLoop (fun _ => none)
      (MESG_TX_SYNC :: 252 :: List.replicate 254 0) = ⟨[], true⟩ := by
  rw [decodeLoop]
  norm_num [MESG_TX_SYNC]

/-- Claim C2: a frame the codec rejects, immediately followed by a frame
the codec accepts, makes the decoder silently discard the first frame,
resume scanning, and emit exactly the one decoded second message, with no
error surfaced (and no panic). -/
theorem c2_resynchronization (decode : List Nat → Option Message)
    (L1 : Nat) (body1 : List Nat) (L2 : Nat) (body2 : List Nat) (m : Message)
    (hL1 : L1 ≤ 251) (hb1 : body1.length = L1 + 2)
    (hL2 : L2 ≤ 251) (hb2 : body2.length = L2 + 2)
    (hbad : decode (MESG_TX_SYNC :: L1 :: body1) = none)
    (hgood : decode (MESG_TX_SYNC :: L2 :: body2) = some m) :
    decodeLoop decode
      ((MESG_TX_SYNC :: L1 :: body1) ++ (MESG_TX_SYNC :: L2 :: body2)) =
      ⟨[m], false⟩ := by
  rw [List.cons_append, List.cons_append,
    decodeLoop_frame decode L1 body1 _ hL1 hb1, hbad]
  have h2 := decodeLoop_frame decode L2 body2 [] hL2 hb2
  rw [List.append_nil] at h2
  rw [h2, hgood]
  simp [decodeLoop]

/-- Claim C2 witness: a concrete bad frame (checksum byte 1) followed by a
concrete good frame (checksum byte 0) under the sample codec yields
exactly the decoded second message. -/
theorem c2_resynchronization_witness :
    decodeLoop sampleDecode
      ((MESG_TX_SYNC :: 0 :: [7, 1]) ++ (MESG_TX_SYNC :: 0 :: [9, 0])) =
      ⟨[NewMessage 9 []], false⟩ :=
  c2_resynchronization sampleDecode 0 [7, 1] 0 [9, 0] (NewMessage 9 [])
    (by decide) (by decide) (by decide) (by decide) (by decide) (by decide)

/-- Claim C3 counterexample: the claim as stated quantifies over every
payload of length 8*N.  For a 2064-byte payload (N = 258) the uint8
packet count truncates to 2, and the second packet sent — an interior
packet by the claim's indexing, since 0 < 1 < 257 — carries
channel-sequence byte 160 (the code treats it as the last packet),
whereas the claim's interior formula prescribes 0 | (1 << 5) = 32. -/
theorem c3_truncation_counterexample :
    SendBurstTransfer 0 (List.replicate 2064 0) =
      ([.timeslot (NewMessage MESG_BURST_DATA_ID (0 :: List.replicate 8 0)),
        .timeslot (NewMessage MESG_BURST_DATA_ID (160 :: List.replicate 8 0))],
       none) ∧
    (160 : Nat) ≠ 0 ||| (((2 - 1) % 3 + 1) <<< 5) := by
  constructor
  · unfold SendBurstTransfer
    norm_num [List.length_replicate]
    rw [burstLoop_ok]
    · norm_num [List.range_succ, List.drop_replicate, List.take_replicate]
      constructor <;> decide
    · intro i hi
      norm_num [List.length_replicate]
      simp [List.range_succ] at hi
      omega
  · decide

/-- Claim C3 (amended: the burst-sequencing formula holds for transfers
of at most 31 packets.  For 32 ≤ N ≤ 255 the code sends the first 31
packets and then panics at packet index 31, whose uint8 slice bounds
wrap to data[248:0]; for N ≥ 256 the uint8 packet count truncates, see
C10; for N = 1 the first-packet rule takes precedence, matching C4):
every packet of SendBurstTransfer carries the claim's channel-sequence
byte followed by its 8-byte slice, in increasing packet order, with no
panic, and in particular channel 2 with a 64-byte payload yields exactly
the bytes 2, 2|(1<<5), 2|(2<<5), 2|(3<<5), 2|(1<<5), 2|(2<<5), 2|(3<<5),
2|((1|4)<<5). -/
theorem c3_burst_sequencing :
    (∀ (channel : Nat) (data : List Nat) (N : Nat),
      N ≤ 31 → data.length = 8 * N →
      ∃ l, SendBurstTransfer channel data = (l, none) ∧ l.length = N ∧
        ∀ i, (hi : i < l.length) → l.get ⟨i, hi⟩ =
          .timeslot (NewMessage MESG_BURST_DATA_ID
            (specBurstChannelSeq channel i N :: (data.drop (i * 8)).take 8))) ∧
    SendBurstTransfer 2 (List.replicate 64 0) =
      (([2, 2 ||| (1 <<< 5), 2 ||| (2 <<< 5), 2 ||| (3 <<< 5),
         2 ||| (1 <<< 5), 2 ||| (2 <<< 5), 2 ||| (3 <<< 5),
         2 ||| ((1 ||| 4) <<< 5)].map
        (fun b => Outbound.timeslot
          (NewMessage MESG_BURST_DATA_ID (b :: List.replicate 8 0)))),
       none) := by
  constructor
  · intro channel data N hN hlen
    have hmod : data.length % 8 = 0 := by omega
    have hpk : data.length / 8 % 256 = N := by omega
    unfold SendBurstTransfer
    simp only [hmod, ne_eq, not_true_eq_false, not_false_eq_true, reduceIte, hpk]
    rw [burstLoop_ok channel data N (List.range N)
      (by intro i hi; simp [List.mem_range] at hi; omega)]
    refine ⟨_, rfl, by simp, ?_⟩
    intro i hi
    simp only [List.length_map, List.length_range] at hi
    simp [List.get_eq_getElem, List.getElem_map, List.getElem_range,
      burstChannelSeq_eq_spec channel i N hi (by omega)]
  · unfold SendBurstTransfer
    norm_num [List.length_replicate]
    rw [burstLoop_ok]
    · norm_num [List.range_succ, List.drop_replicate, List.take_replicate]
      refine ⟨by decide, by decide, by decide, by decide, by decide,
        by decide, by decide, by decide⟩
    · intro i hi
      norm_num [List.length_replicate]
      simp [List.range_succ] at hi
      omega

/-- Claim C3 witness: a 16-byte transfer on channel 2 (N = 2 packets)
instantiates the amended burst-sequencing theorem. -/
theorem c3_burst_sequencing_witness :
    ∃ l, SendBurstTransfer 2 (List.replicate 16 0) = (l, none) ∧ l.length = 2 ∧
      ∀ i, (hi : i < l.length) → l.get ⟨i, hi⟩ =
        .timeslot (NewMessage MESG_BURST_DATA_ID
          (specBurstChannelSeq 2 i 2 ::
            ((List.replicate 16 0).drop (i * 8)).take 8)) :=
  c3_burst_sequencing.1 2 (List.replicate 16 0) 2 (by decide) (by simp)

/-- Claim C4.  The claim (and the spec invariant) say a single-packet
transfer carries sequence 0 with the terminal flag also set, i.e. byte
channel | (0b100 << 5) = 2 | 128 = 130 on channel 2.  The code's else-if
skips the terminal flag whenever i = 0, so the single packet carries
byte 2 — and 130 is the value the claim demands, which differs. -/
theorem c4_single_packet_missing_terminal_flag :
    SendBurstTransfer 2 (List.replicate 8 0) =
      ([.timeslot (NewMessage MESG_BURST_DATA_ID (2 :: List.replicate 8 0))],
       none) ∧
    2 ||| (4 <<< 5) = 130 ∧ (2 : Nat) ≠ 130 :=
  ⟨by rfl, by decide, by decide⟩

/-- Claim C5: SendBroadcastData, SendAcknowledgedData and
SendBurstTransferPacket with a payload whose length is not 8, and
SetSearchWaveform with a waveform outside the set containing 97 and 316,
signal InvalidArgument and enqueue nothing on any outbound channel. -/
theorem c5_argument_validation (channel : Nat) (data : List Nat) (w : Nat)
    (hd : data.length ≠ 8) (h97 : w ≠ 97) (h316 : w ≠ 316) :
    SendBroadcastData channel data = .error .invalidArgument ∧
    SendAcknowledgedData channel data = .error .invalidArgument ∧
    SendBurstTransferPacket channel data = .error .invalidArgument ∧
    SetSearchWaveform channel w = .error .invalidArgument := by
  refine ⟨?_, ?_, ?_, ?_⟩ <;>
    simp [SendBroadcastData, SendAcknowledgedData, SendBurstTransferPacket,
      SetSearchWaveform, hd, h97, h316]

/-- Claim C5 witness: the empty payload and waveform 0 are rejected by
all four builders with nothing enqueued. -/
theorem c5_argument_validation_witness :
    SendBroadcastData 0 [] = .error .invalidArgument ∧
    SendAcknowledgedData 0 [] = .error .invalidArgument ∧
    SendBurstTransferPacket 0 [] = .error .invalidArgument ∧
    SetSearchWaveform 0 0 = .error .invalidArgument :=
  c5_argument_validation 0 [] 0 (by decide) (by decide) (by decide)

/-- Claim C6.  The claim says closure at any point mid-frame yields zero
messages and clean termination.  For length byte 253 the uint8 buffer
size is (253+4) mod 256 = 1, so when the stream closes partway through
assembly (only one of the 255 expected trailing bytes arrived) the code
dies in an index-out-of-range panic at the store of the length byte
instead of terminating cleanly. -/
theorem c6_partial_frame_panics :
    decodeLoop (fun _ => none) [MESG_TX_SYNC, 253, 0] = ⟨[], true⟩ := by
  simp [decodeLoop, MESG_TX_SYNC]

/-- Claim C7 counterexample: when the shutdown signal and a queued
outbound Message are both available, the select may take the outbound
branch — the shutdown branch is not always the one taken. -/
theorem c7_select_counterexample :
    selectStep true true Choice.pickOutbound = Branch.outbound ∧
    Branch.outbound ≠ Branch.shutdown := by
  exact ⟨rfl, by decide⟩

/-- Claim C7 (amended: the shutdown check and the outbound drain each
take strict priority over the default inbound read — the default runs
exactly when neither is available — but when shutdown and an outbound
Message are both available Go's select picks pseudo-randomly between
those two branches, so the shutdown branch is not always taken). -/
theorem c7_select_priority :
    ∀ c : Choice,
      selectStep false false c = Branch.inboundPoll ∧
      selectStep true false c = Branch.shutdown ∧
      selectStep false true c = Branch.outbound ∧
      (selectStep true true c = Branch.shutdown ∨
       selectStep true true c = Branch.outbound) := by
  intro c
  cases c <;> exact ⟨rfl, rfl, rfl, by first | exact .inl rfl | exact .inr rfl⟩

/-- Claim C7 witness: the amended select-priority theorem at the
shutdown-picking oracle. -/
theorem c7_select_priority_witness :
    selectStep false false Choice.pickShutdown = Branch.inboundPoll ∧
    selectStep true false Choice.pickShutdown = Branch.shutdown ∧
    selectStep false true Choice.pickShutdown = Branch.outbound ∧
    (selectStep true true Choice.pickShutdown = Branch.shutdown ∨
     selectStep true true Choice.pickShutdown = Branch.outbound) :=
  c7_select_priority Choice.pickShutdown

/-- Claim C8: across any pump execution the timeslot-priority queue is
never consumed — no live branch receives from it — and every byte
sequence written to the transport is the encoding of a Message drained,
in order, from the queued write channel alone. -/
theorem c8_timeslot_never_drained :
    ∀ (encode : Message → List Nat) (cs : List Choice) (s : PumpState),
      (pumpRun encode cs s).timeslotQ = s.timeslotQ ∧
      ∃ k, (pumpRun encode cs s).written =
              s.written ++ (s.writeQ.take k).map encode ∧
           (pumpRun encode cs s).writeQ = s.writeQ.drop k := by
  intro encode cs
  induction cs with
  | nil => exact fun s => ⟨rfl, 0, by simp [pumpRun], by simp [pumpRun]⟩
  | cons c cs ih =>
    intro s
    obtain ⟨hts, hw⟩ := pumpStep_effects encode c s
    obtain ⟨hts', k, hwr, hwq⟩ := ih (pumpStep encode c s)
    refine ⟨by rw [pumpRun, hts', hts], ?_⟩
    rcases hw with ⟨hw1, hw2⟩ | ⟨m, rest, hq, hw1, hw2⟩
    · exact ⟨k, by rw [pumpRun, hwr, hw1, hw2], by rw [pumpRun, hwq, hw2]⟩
    · refine ⟨k + 1, ?_, ?_⟩
      · rw [pumpRun, hwr, hw1, hw2, hq]
        simp [List.take_succ_cons]
      · rw [pumpRun, hwq, hw2, hq]
        simp [List.drop_succ_cons]

/-- Claim C8 witness: a concrete two-iteration pump run with one Message
on each queue drains only the queued channel and leaves the timeslot
queue intact. -/
theorem c8_timeslot_never_drained_witness :
    (pumpRun (fun m => [m.messageId]) [Choice.pickOutbound, Choice.pickOutbound]
      ⟨false, [NewMessage 1 []], [NewMessage 2 []], [], [], [], false⟩).timeslotQ =
      (⟨false, [NewMessage 1 []], [NewMessage 2 []], [], [], [], false⟩ :
        PumpState).timeslotQ ∧
    ∃ k, (pumpRun (fun m => [m.messageId])
            [Choice.pickOutbound, Choice.pickOutbound]
            ⟨false, [NewMessage 1 []], [NewMessage 2 []], [], [], [], false⟩).written =
          (⟨false, [NewMessage 1 []], [NewMessage 2 []], [], [], [], false⟩ :
            PumpState).written ++
            (((⟨false, [NewMessage 1 []], [NewMessage 2 []], [], [], [], false⟩ :
              PumpState).writeQ.take k).map (fun m => [m.messageId])) ∧
         (pumpRun (fun m => [m.messageId])
            [Choice.pickOutbound, Choice.pickOutbound]
            ⟨false, [NewMessage 1 []], [NewMessage 2 []], [], [], [], false⟩).writeQ =
          (⟨false, [NewMessage 1 []], [NewMessage 2 []], [], [], [], false⟩ :
            PumpState).writeQ.drop k :=
  c8_timeslot_never_drained (fun m => [m.messageId])
    [Choice.pickOutbound, Choice.pickOutbound]
    ⟨false, [NewMessage 1 []], [NewMessage 2 []], [], [], [], false⟩

/-- Claim C9: in every reachable state of the shutdown protocol, if Stop
has returned then both the pump loop and the decode loop have finished
and the decoder byte channel and the transport are closed (two completion
rendezvous having occurred, one per loop); moreover the decode loop
leaves its running state only after the pump has closed the byte
channel. -/
theorem c9_shutdown_determinism :
    ∀ s : SysState, SysReach s →
      (s.spc = .returned →
        s.ppc = .finished ∧ s.dpc = .finished ∧
        s.decoderClosed = true ∧ s.transportClosed = true) ∧
      (s.dpc ≠ .running → s.decoderClosed = true) := by
  intro s h
  obtain ⟨h1, h2, h3, h4⟩ := sysReach_inv h
  refine ⟨fun hr => ?_, h3⟩
  obtain ⟨hp, hd⟩ := h2 hr
  obtain ⟨hc, ht⟩ := h4 (.inr hp)
  exact ⟨hp, hd, hc, ht⟩

/-- Claim C9 witness: the fully quiesced state is reachable by the
canonical shutdown trace, and there both loops are finished with the
byte channel and transport closed. -/
theorem c9_shutdown_determinism_witness :
    sysFinal.ppc = .finished ∧ sysFinal.dpc = .finished ∧
    sysFinal.decoderClosed = true ∧ sysFinal.transportClosed = true := by
  have r1 : SysReach sysInit := SysReach.init
  have r2 := SysReach.step r1 (SysStep.stopSignal sysInit rfl rfl)
  have r3 := SysReach.step r2 (SysStep.pumpCleanup _ rfl)
  have r4 := SysReach.step r3 (SysStep.pumpDone1 _ rfl rfl)
  have r5 := SysReach.step r4 (SysStep.decObserveClose _ rfl rfl)
  have r6 := SysReach.step r5 (SysStep.decDone2 _ rfl rfl)
  exact (c9_shutdown_determinism sysFinal r6).1 rfl

/-- Claim C10 counterexample: the claim says every payload of length 8*k
sends k mod 256 packets.  A 256-byte payload (k = 32) sends only 31
packets and then dies in the uint8 slice-bound panic at packet index 31
(data[248:0]), so it does not send 256/8 mod 256 = 32 packets. -/
theorem c10_slice_wrap_counterexample :
    (SendBurstTransfer 0 (List.replicate 256 0)).2 = some .sliceOutOfRange ∧
    (SendBurstTransfer 0 (List.replicate 256 0)).1.length = 31 ∧
    (31 : Nat) ≠ 256 / 8 % 256 := by
  have hok : ∀ i ∈ List.range 31,
      i ≤ 30 ∧ i * 8 + 8 ≤ (List.replicate 256 (0 : Nat)).length := by
    intro i hi
    rw [List.mem_range] at hi
    rw [List.length_replicate]
    omega
  have hnone : (burstLoop 0 (List.replicate 256 0) 32 (List.range 31)).2 =
      none := by
    rw [burstLoop_ok _ _ _ _ hok]
  have h : SendBurstTransfer 0 (List.replicate 256 0) =
      ((List.range 31).map (fun i => .timeslot (NewMessage MESG_BURST_DATA_ID
        (burstChannelSeq 0 i 32 :: ((List.replicate 256 0).drop (i * 8)).take 8))),
       some .sliceOutOfRange) := by
    unfold SendBurstTransfer
    norm_num [List.length_replicate]
    have hsplit : List.range 32 = List.range 31 ++ (31 :: []) := by
      norm_num [List.range_succ]
    rw [hsplit, burstLoop_append _ _ _ _ _ hnone, burstLoop_panics_at_31,
      burstLoop_ok _ _ _ _ hok]
    exact Prod.ext (List.append_nil _) rfl
  rw [h]
  refine ⟨rfl, ?_, by decide⟩
  rw [List.length_map, List.length_range]

/-- Claim C10 (amended: the packet count is truncated to uint8, and the
uint8 slice bounds additionally cap what is sent at 31 packets — for
payload length 8*k with p = k mod 256, the transfer passes validation
and sends exactly p packets when p ≤ 31, while for p ≥ 32 it sends the
first 31 packets and then panics at packet index 31, whose slice bound
wraps to data[248:0]; so any payload of 2048 bytes or more whose length
is a multiple of 8 sends fewer packets than len/8, and a 2048-byte
payload sends zero packets). -/
theorem c10_packet_truncation :
    (∀ (channel : Nat) (data : List Nat), data.length % 8 = 0 →
      data.length / 8 % 256 ≤ 31 →
      ∃ l, SendBurstTransfer channel data = (l, none) ∧
        l.length = data.length / 8 % 256) ∧
    (∀ (channel : Nat) (data : List Nat), data.length % 8 = 0 →
      32 ≤ data.length / 8 % 256 →
      ∃ l, SendBurstTransfer channel data = (l, some .sliceOutOfRange) ∧
        l.length = 31) ∧
    SendBurstTransfer 0 (List.replicate 2048 0) = ([], none) := by
  refine ⟨?_, ?_, ?_⟩
  · intro channel data hmod hp
    unfold SendBurstTransfer
    simp only [hmod, ne_eq, not_true_eq_false, not_false_eq_true, reduceIte]
    rw [burstLoop_ok channel data (data.length / 8 % 256)
      (List.range (data.length / 8 % 256))
      (by intro i hi; simp [List.mem_range] at hi
          refine ⟨by omega, ?_⟩
          have := Nat.mod_le (data.length / 8) 256
          omega)]
    exact ⟨_, rfl, by simp⟩
  · intro channel data hmod hp
    have hlen : 256 ≤ data.length := by
      have := Nat.mod_le (data.length / 8) 256
      omega
    unfold SendBurstTransfer
    simp only [hmod, ne_eq, not_true_eq_false, not_false_eq_true, reduceIte]
    have hsplit : List.range (data.length / 8 % 256) =
        List.range 31 ++ (31 :: (List.range (data.length / 8 % 256)).drop 32) := by
      conv_lhs => rw [← List.take_append_drop 32
        (List.range (data.length / 8 % 256))]
      rw [List.take_range]
      have h32 : min 32 (data.length / 8 % 256) = 32 := by omega
      rw [h32]
      norm_num [List.range_succ]
    have hok : ∀ i ∈ List.range 31, i ≤ 30 ∧ i * 8 + 8 ≤ data.length := by
      intro i hi
      rw [List.mem_range] at hi
      omega
    have hnone : (burstLoop channel data (data.length / 8 % 256)
        (List.range 31)).2 = none := by
      rw [burstLoop_ok _ _ _ _ hok]
    rw [hsplit, burstLoop_append _ _ _ _ _ hnone, burstLoop_panics_at_31,
      burstLoop_ok _ _ _ _ hok]
    exact ⟨_, rfl, by simp⟩
  · unfold SendBurstTransfer
    norm_num [List.length_replicate]
    rfl

/-- Claim C10 witness: a 24-byte payload passes validation and sends
24/8 mod 256 = 3 packets, and a 2400-byte payload (300 packets claimed,
300 mod 256 = 44 ≥ 32) sends 31 packets and panics. -/
theorem c10_packet_truncation_witness :
    (∃ l, SendBurstTransfer 3 (List.replicate 24 0) = (l, none) ∧
      l.length = (List.replicate 24 (0 : Nat)).length / 8 % 256) ∧
    (∃ l, SendBurstTransfer 0 (List.replicate 2400 0) =
      (l, some .sliceOutOfRange) ∧ l.length = 31) :=
  ⟨c10_packet_truncation.1 3 (List.replicate 24 0)
      (by rw [List.length_replicate]) (by rw [List.length_replicate]; norm_num),
   c10_packet_truncation.2.1 0 (List.replicate 2400 0)
      (by rw [List.length_replicate]) (by rw [List.length_replicate]; norm_num)⟩

end Ant
